import Mathlib

/-!
Verification of the adaptive per-source download admission controller and
its consuming job pipeline (src/downloader/async_manager.py, src/worker.py).

The per-source slice of the shared counter store (Redis) is embedded as an
explicit state record; the async methods of AsyncDownloadManager become pure
state-passing functions.  Python float comparisons of the error rate against
the literals 0.3 and 0.05 are embedded as the exact rational comparisons
10*err > 3*total and 20*err < total.  The probabilistic decay check
(random.random() < 0.1) is embedded as an explicit Boolean parameter.
-/

namespace Astas

/-- Per-source slice of the Redis store: the keys
dl_stats:{s}:success, dl_stats:{s}:error, dl_limit:{s}, dl_active:{s}. -/
structure RedisState where
  success : Nat
  error : Nat
  limit : Option Int
  active : Int
  deriving Repr, DecidableEq

/-- AsyncDownloadManager._get_limit: the stored limit if present, else the
manager's default limit (int(os.getenv("DL_GLOBAL_LIMIT", 3))). -/
def getLimit (defaultLimit : Int) (st : RedisState) : Int :=
  match st.limit with
  | some v => v
  | none => defaultLimit

/-- AsyncDownloadManager._set_limit: store a limit value. -/
def setLimit (v : Int) (st : RedisState) : RedisState :=
  { st with limit := some v }

/-- AsyncDownloadManager._auto_adjust_limit: if success+error < 10 do
nothing; else with rate = error/(success+error), decrement the limit when
rate > 0.3 and limit > 1, increment it when rate < 0.05 and limit < 10. -/
def autoAdjustLimit (defaultLimit : Int) (st : RedisState) : RedisState :=
  let total := st.success + st.error
  if total < 10 then st
  else
    let current := getLimit defaultLimit st
    if 10 * st.error > 3 * total ∧ current > 1 then
      setLimit (current - 1) st
    else if 20 * st.error < total ∧ current < 10 then
      setLimit (current + 1) st
    else st

/-- AsyncDownloadManager._record_result: increment the success or error
counter, then (when the 10% probabilistic check fires, here the explicit
parameter decayFires) halve both counters if their sum exceeds 200, then
always run _auto_adjust_limit. -/
def recordResult (defaultLimit : Int) (decayFires : Bool) (ok : Bool)
    (st : RedisState) : RedisState :=
  let st1 := if ok then { st with success := st.success + 1 }
             else { st with error := st.error + 1 }
  let st2 :=
    if decayFires then
      if st1.success + st1.error > 200 then
        { st1 with success := st1.success / 2, error := st1.error / 2 }
      else st1
    else st1
  autoAdjustLimit defaultLimit st2

/-- AsyncDownloadManager._acquire_slot, at the instant the poll loop sees
active < limit and increments: the granted acquisition. -/
def acquireSlot (st : RedisState) : RedisState :=
  { st with active := st.active + 1 }

/-- AsyncDownloadManager._release_slot: decrement the active-slot counter. -/
def releaseSlot (st : RedisState) : RedisState :=
  { st with active := st.active - 1 }

/-! ## Per-asset fetch (the inner `save` coroutine of download_chapter) -/

/-- Environment conditions a single `save(i, url)` call runs under: whether
the destination file already exists with non-zero size, whether the streamed
download succeeds (connection, status check and body writes all succeed),
whether the PIL re-encoding step raises, and whether a failed download left
a (possibly empty or truncated) file behind. -/
structure AssetCond where
  destExistsNonEmpty : Bool
  netOk : Bool
  compressRaises : Bool
  leftoverFile : Bool
  deriving Repr, DecidableEq

/-- Observable result of one `save(i, url)` call: how many network fetches
were started, the _record_result outcomes reported in order, by how much the
nonlocal `done` counter was incremented, and whether a file is on disk at
the destination afterwards. -/
structure SaveResult where
  networkFetches : Nat
  recordCalls : List Bool
  doneInc : Nat
  fileOnDisk : Bool
  deriving Repr, DecidableEq

/-- The `save` coroutine of download_chapter: return immediately when the
destination exists non-empty (no fetch, no outcome report, `done` not
touched); otherwise stream the download under the semaphore, optionally
re-encode with PIL when compression is enabled, increment `done` and report
success — any exception is caught and reported as a failure outcome. -/
def save (compress : Bool) (c : AssetCond) : SaveResult :=
  if c.destExistsNonEmpty then
    { networkFetches := 0, recordCalls := [], doneInc := 0, fileOnDisk := true }
  else if !c.netOk then
    { networkFetches := 1, recordCalls := [false], doneInc := 0,
      fileOnDisk := c.leftoverFile }
  else if compress && c.compressRaises then
    { networkFetches := 1, recordCalls := [false], doneInc := 0,
      fileOnDisk := true }
  else
    { networkFetches := 1, recordCalls := [true], doneInc := 1,
      fileOnDisk := true }

/-- State effect of one `save` call on the per-source Redis slice: each
reported outcome is one _record_result call (the skip path reports
nothing). -/
def saveEffect (defaultLimit : Int) (compress : Bool) (c : AssetCond)
    (decayFires : Bool) (st : RedisState) : RedisState :=
  if c.destExistsNonEmpty then st
  else if !c.netOk then recordResult defaultLimit decayFires false st
  else if compress && c.compressRaises then
    recordResult defaultLimit decayFires false st
  else recordResult defaultLimit decayFires true st

/-! ## Chapter orchestration (download_chapter) -/

/-- Completion summary of one download_chapter run: the final `done` count,
the job's `total` (number of asset URLs) and the number of network fetches
performed. -/
structure ChapterResult where
  done : Nat
  total : Nat
  fetches : Nat
  deriving Repr, DecidableEq

/-- Fan-out of the `save` calls over the asset list (each asset paired with
whether the decay check fires during its _record_result), accumulating the
`done` and fetch counts and threading the Redis state. -/
def runSaves (defaultLimit : Int) (compress : Bool) :
    List (AssetCond × Bool) → RedisState → (Nat × Nat) × RedisState
  | [], st => ((0, 0), st)
  | (c, decay) :: rest, st =>
    let r := save compress c
    let k := runSaves defaultLimit compress rest
      (saveEffect defaultLimit compress c decay st)
    ((r.doneInc + k.1.1, r.networkFetches + k.1.2), k.2)

/-- AsyncDownloadManager.download_chapter: acquire a slot for the job's
source, fan out the `save` calls over the enumerated URLs, and release the
slot in a `finally` block. -/
def downloadChapter (defaultLimit : Int) (compress : Bool)
    (conds : List (AssetCond × Bool)) (st : RedisState) :
    ChapterResult × RedisState :=
  let k := runSaves defaultLimit compress conds (acquireSlot st)
  (⟨k.1.1, conds.length, k.1.2⟩, releaseSlot k.2)

/-- download_chapter when the fan-out (or directory creation) raises instead
of returning its summary: the `finally` block still releases the slot and
the exception propagates.  The body's state effect up to the raise is an
arbitrary function given by the caller. -/
def downloadChapterRaising (body : RedisState → RedisState)
    (st : RedisState) : Except String Unit × RedisState :=
  (Except.error "fan-out raised", releaseSlot (body (acquireSlot st)))

/-! ## Destination paths (`Path(url).suffix`, `f"{i:03d}{ext}"`) -/

/-- Splitting of a character list at every occurrence of a separator,
mirroring str.split: the result is always non-empty and adjacent
separators yield empty components. -/
def splitOnChar (sep : Char) : List Char → List (List Char)
  | [] => [[]]
  | c :: cs =>
    match splitOnChar sep cs with
    | [] => [[]]
    | h :: t => if c = sep then [] :: h :: t else (c :: h) :: t

/-- pathlib's name of a POSIX path string: the last path component, with
empty and single-dot components dropped. -/
def pathName (url : String) : List Char :=
  ((splitOnChar '/' url.toList).filter
    (fun s => !(s.isEmpty || s == ['.']))).getLastD []

/-- Index of the last occurrence of a character in a list, if any. -/
def lastIdxOf (c : Char) : List Char → Option Nat
  | [] => none
  | a :: as =>
    match lastIdxOf c as with
    | some i => some (i + 1)
    | none => if a = c then some 0 else none

/-- pathlib's suffix: the substring of the name from its last dot, provided
that dot is neither the first nor the last character; else the empty
string. -/
def pathSuffix (url : String) : String :=
  let name := pathName url
  match lastIdxOf '.' name with
  | some i =>
    if 0 < i ∧ i < name.length - 1 then String.mk (name.drop i) else ""
  | none => ""

/-- The format f"{i:03d}": the decimal digits of i, left-padded with zeros
to a width of at least 3. -/
def pad3 (i : Nat) : String :=
  let s := toString i
  if s.length < 3 then String.mk (List.replicate (3 - s.length) '0') ++ s
  else s

/-- Filename chosen for the asset at 1-based index i with URL url:
f"{i:03d}{ext}" where ext = Path(url).suffix or ".jpg". -/
def assetFilename (i : Nat) (url : String) : String :=
  let ext := pathSuffix url
  pad3 i ++ (if ext = "" then ".jpg" else ext)

/-- Full destination path: output_dir / manga_title / chapter_title /
assetFilename. -/
def assetDest (outputDir manga chapter : String) (i : Nat) (url : String) :
    String :=
  outputDir ++ "/" ++ manga ++ "/" ++ chapter ++ "/" ++ assetFilename i url

/-- Filenames produced for an asset list, mirroring enumerate(urls, 1). -/
def chapterFilenamesFrom (i : Nat) : List String → List String
  | [] => []
  | u :: us => assetFilename i u :: chapterFilenamesFrom (i + 1) us

/-- Filenames for a whole job, 1-based. -/
def chapterFilenames (urls : List String) : List String :=
  chapterFilenamesFrom 1 urls

/-! ## Job queue consumer (src/worker.py main loop) -/

/-- Shape of the job payload passed to download_chapter by the worker. -/
structure JobPayload where
  manga_title : String
  chapter_title : String
  urls : List String
  deriving Repr, DecidableEq

/-- What one iteration of the worker's `while True` loop does. -/
inductive ConsumerOutcome where
  | timeoutContinue
  | ranJob (j : JobPayload)
  | loopCrashed (e : String)
  deriving Repr, DecidableEq

/-- One iteration of worker.main's loop: blpop either times out (sleep 1 and
continue) or yields a payload, which is decoded by `eval`; a decode result
is modelled as Except.  The loop body has no exception handler, so a decode
failure propagates out of the loop. -/
def consumerIteration (popped : Option (Except String JobPayload)) :
    ConsumerOutcome :=
  match popped with
  | none => ConsumerOutcome.timeoutContinue
  | some (Except.ok j) => ConsumerOutcome.ranJob j
  | some (Except.error e) => ConsumerOutcome.loopCrashed e

/-- Whether the loop goes on to accept the next job after this iteration. -/
def continuesLoop : ConsumerOutcome → Bool
  | ConsumerOutcome.loopCrashed _ => false
  | _ => true

/-! ## Per-job fan-out semaphore (asyncio.Semaphore(sem_limit)) -/

/-- Phase of one `save` task with respect to the per-job semaphore: not yet
at the semaphore, suspended in its acquire, inside the `async with sem`
block (download in flight), or done. -/
inductive Phase where
  | idle
  | waiting
  | holding
  | finished
  deriving Repr, DecidableEq, BEq

/-- Number of downloads in flight: tasks inside the semaphore block. -/
def holdingCount (ts : List Phase) : Nat :=
  ts.countP (fun t => decide (t = Phase.holding))

/-- Interleaving semantics of the fan-out under asyncio.Semaphore(cap): a
task may start waiting at any time; a waiting task enters the semaphore
block only when fewer than cap tasks hold it; a holder may leave. -/
inductive SemStep (cap : Nat) : List Phase → List Phase → Prop where
  | start (pre post : List Phase) :
      SemStep cap (pre ++ Phase.idle :: post) (pre ++ Phase.waiting :: post)
  | acquire (pre post : List Phase)
      (h : holdingCount (pre ++ post) < cap) :
      SemStep cap (pre ++ Phase.waiting :: post)
        (pre ++ Phase.holding :: post)
  | release (pre post : List Phase) :
      SemStep cap (pre ++ Phase.holding :: post)
        (pre ++ Phase.finished :: post)

/-- States of the fan-out reachable from all tasks not yet started. -/
def SemReachable (cap n : Nat) (ts : List Phase) : Prop :=
  Relation.ReflTransGen (SemStep cap) (List.replicate n Phase.idle) ts

/-! ## Helper lemmas -/

theorem getLimit_setLimit (d v : Int) (st : RedisState) :
    getLimit d (setLimit v st) = v := rfl

theorem autoAdjustLimit_success (d : Int) (st : RedisState) :
    (autoAdjustLimit d st).success = st.success := by
  simp only [autoAdjustLimit, setLimit]
  split_ifs <;> rfl

theorem autoAdjustLimit_error (d : Int) (st : RedisState) :
    (autoAdjustLimit d st).error = st.error := by
  simp only [autoAdjustLimit, setLimit]
  split_ifs <;> rfl

theorem autoAdjustLimit_active (d : Int) (st : RedisState) :
    (autoAdjustLimit d st).active = st.active := by
  simp only [autoAdjustLimit, setLimit]
  split_ifs <;> rfl

theorem recordResult_active (d : Int) (decay ok : Bool) (st : RedisState) :
    (recordResult d decay ok st).active = st.active := by
  unfold recordResult
  rw [autoAdjustLimit_active]
  cases ok <;> cases decay <;> simp <;> split <;> rfl

theorem saveEffect_active (d : Int) (compress : Bool) (c : AssetCond)
    (decay : Bool) (st : RedisState) :
    (saveEffect d compress c decay st).active = st.active := by
  unfold saveEffect
  split_ifs <;> simp [recordResult_active]

theorem runSaves_active (d : Int) (compress : Bool)
    (conds : List (AssetCond × Bool)) (st : RedisState) :
    (runSaves d compress conds st).2.active = st.active := by
  induction conds generalizing st with
  | nil => rfl
  | cons p rest ih =>
    obtain ⟨c, decay⟩ := p
    simp only [runSaves]
    rw [ih, saveEffect_active]

/-! ## Claim theorems -/

/-- C2.  AdjustLimit as a function of the counters and the old limit
(within the documented limit domain [1, 10]): below 10 signals it is a
no-op; at or above 10 signals, error rate above 0.30 yields
max(1, old - 1), error rate below 0.05 yields min(10, old + 1), and
otherwise the limit is unchanged.  In particular limit 3 with 4 errors and
6 successes yields limit 2 (see the witness). -/
theorem adjust_limit_policy (d : Int) (st : RedisState)
    (h1 : 1 ≤ getLimit d st) (h2 : getLimit d st ≤ 10) :
    (st.success + st.error < 10 →
      getLimit d (autoAdjustLimit d st) = getLimit d st) ∧
    (10 ≤ st.success + st.error →
      (10 * st.error > 3 * (st.success + st.error) →
        getLimit d (autoAdjustLimit d st) = max 1 (getLimit d st - 1)) ∧
      (20 * st.error < st.success + st.error →
        getLimit d (autoAdjustLimit d st) = min 10 (getLimit d st + 1)) ∧
      (¬ 10 * st.error > 3 * (st.success + st.error) →
        ¬ 20 * st.error < st.success + st.error →
        getLimit d (autoAdjustLimit d st) = getLimit d st)) := by
  simp only [autoAdjustLimit, setLimit]
  split_ifs with hlt hdec hinc
  · exact ⟨fun _ => rfl, fun hge => absurd hge (by omega)⟩
  · refine ⟨fun hc => absurd hc (by omega), fun _ => ⟨fun _ => ?_, ?_, ?_⟩⟩
    · show getLimit d { st with limit := some (getLimit d st - 1) } =
        max 1 (getLimit d st - 1)
      rw [show getLimit d { st with limit := some (getLimit d st - 1) } =
        getLimit d st - 1 from rfl]
      omega
    · intro hr; exact absurd hr (by omega)
    · intro hr _; exact absurd hdec.1 hr
  · refine ⟨fun hc => absurd hc (by omega), fun _ => ⟨fun hr => ?_, fun _ => ?_, fun _ hr => ?_⟩⟩
    · exact absurd hr (by omega)
    · show getLimit d { st with limit := some (getLimit d st + 1) } =
        min 10 (getLimit d st + 1)
      rw [show getLimit d { st with limit := some (getLimit d st + 1) } =
        getLimit d st + 1 from rfl]
      omega
    · exact absurd hinc.1 hr
  · refine ⟨fun _ => rfl, fun _ => ⟨fun hr => ?_, fun hr => ?_, fun _ _ => rfl⟩⟩
    · omega
    · omega

/-- Witness for C2: from limit 3 with 6 successes and 4 errors (rate 0.40),
the adjusted limit is 2. -/
theorem adjust_limit_policy_witness :
    getLimit 3 (autoAdjustLimit 3 ⟨6, 4, some 3, 0⟩) = 2 := by
  have h := ((adjust_limit_policy 3 ⟨6, 4, some 3, 0⟩ (by decide)
    (by decide)).2 (by norm_num)).1 (by norm_num)
  rw [h]; decide

/-- C3.  For every source state with the current limit in [1, 10], the
limit after AdjustLimit remains in [1, 10]; and when no limit value is
stored, the limit read is the manager's default (3 unless
operator-configured). -/
theorem limit_bounds_invariant (d : Int) (st : RedisState)
    (h1 : 1 ≤ getLimit d st) (h2 : getLimit d st ≤ 10) :
    (1 ≤ getLimit d (autoAdjustLimit d st) ∧
     getLimit d (autoAdjustLimit d st) ≤ 10) ∧
    ∀ s e a, getLimit d ⟨s, e, none, a⟩ = d := by
  refine ⟨?_, fun s e a => rfl⟩
  simp only [autoAdjustLimit, setLimit]
  split_ifs with hlt hdec hinc
  · exact ⟨h1, h2⟩
  · rw [show getLimit d { st with limit := some (getLimit d st - 1) } =
      getLimit d st - 1 from rfl]
    omega
  · rw [show getLimit d { st with limit := some (getLimit d st + 1) } =
      getLimit d st + 1 from rfl]
    omega
  · exact ⟨h1, h2⟩

/-- Witness for C3: with the default limit 3 and nothing stored, the limit
reads 3 and stays in [1, 10] after adjustment. -/
theorem limit_bounds_invariant_witness :
    (1 ≤ getLimit 3 (autoAdjustLimit 3 ⟨0, 0, none, 0⟩) ∧
     getLimit 3 (autoAdjustLimit 3 ⟨0, 0, none, 0⟩) ≤ 10) ∧
    ∀ s e a, getLimit 3 ⟨s, e, none, a⟩ = 3 :=
  limit_bounds_invariant 3 ⟨0, 0, none, 0⟩ (by decide) (by decide)

/-- C5.  Counters across one _record_result call: when the decay check does
not fire the counters only grow; when it fires but the incremented sum is
at most 200 they still only grow; when it fires with the incremented sum
above 200 both counters are exactly the integer halves of their
post-increment values (e.g. from success 150, error 60 the result is
success 75, error 30 for either outcome — see the witness). -/
theorem record_result_counters (d : Int) (ok : Bool) (st : RedisState) :
    (st.success ≤ (recordResult d false ok st).success ∧
     st.error ≤ (recordResult d false ok st).error) ∧
    (st.success + st.error + 1 ≤ 200 →
      st.success ≤ (recordResult d true ok st).success ∧
      st.error ≤ (recordResult d true ok st).error) ∧
    (200 < st.success + st.error + 1 →
      (ok = true →
        (recordResult d true ok st).success = (st.success + 1) / 2 ∧
        (recordResult d true ok st).error = st.error / 2) ∧
      (ok = false →
        (recordResult d true ok st).success = st.success / 2 ∧
        (recordResult d true ok st).error = (st.error + 1) / 2)) := by
  cases ok <;>
    simp only [recordResult, if_true, if_false, Bool.true_eq_false,
      Bool.false_eq_true, reduceIte, autoAdjustLimit_success,
      autoAdjustLimit_error] <;>
    refine ⟨⟨by simp, by simp⟩, fun hle => ?_, fun hgt => ?_⟩ <;>
    exact ⟨by split <;> simp <;> omega, by split <;> simp <;> omega⟩

/-- Witness for C5: from success 150, error 60 (incremented sum 211 > 200),
a success outcome with the decay firing leaves success 75, error 30. -/
theorem record_result_counters_witness :
    (recordResult 3 true true ⟨150, 60, some 3, 0⟩).success = 75 ∧
    (recordResult 3 true true ⟨150, 60, some 3, 0⟩).error = 30 := by
  have h := ((record_result_counters 3 true
    ⟨150, 60, some 3, 0⟩).2.2 (by norm_num)).1 rfl
  exact ⟨by rw [h.1]; decide, by rw [h.2]; decide⟩

/-- C6.  The slot acquired by download_chapter is released exactly once on
every exit path: a completed run leaves the active counter unchanged, a run
whose fan-out raises (any body effect that does not touch the active
counter) still releases in its finally block, and N completed jobs starting
from an idle source leave the active counter at 0. -/
theorem slot_release_balanced (d : Int) (compress : Bool)
    (conds : List (AssetCond × Bool)) (st : RedisState)
    (body : RedisState → RedisState)
    (hbody : ∀ s, (body s).active = s.active)
    (N : Nat) (st0 : RedisState) (h0 : st0.active = 0) :
    (downloadChapter d compress conds st).2.active = st.active ∧
    (downloadChapterRaising body st).2.active = st.active ∧
    ((fun s => (downloadChapter d compress conds s).2)^[N] st0).active = 0 := by
  have hone : ∀ s : RedisState,
      (downloadChapter d compress conds s).2.active = s.active := by
    intro s
    show (releaseSlot (runSaves d compress conds (acquireSlot s)).2).active =
      s.active
    simp only [releaseSlot, runSaves_active, acquireSlot]
    omega
  refine ⟨hone st, ?_, ?_⟩
  · show (releaseSlot (body (acquireSlot st))).active = st.active
    simp only [releaseSlot, hbody, acquireSlot]
    omega
  · induction N with
    | zero => exact h0
    | succ n ih =>
      rw [Function.iterate_succ_apply', hone]
      exact ih

/-- Witness for C6: two back-to-back empty jobs from an idle source leave
the active-slot counter at 0. -/
theorem slot_release_balanced_witness :
    ((fun s => (downloadChapter 3 false [] s).2)^[2]
      (⟨0, 0, none, 0⟩ : RedisState)).active = 0 :=
  (slot_release_balanced 3 false [] ⟨0, 0, none, 0⟩ id (fun _ => rfl) 2
    ⟨0, 0, none, 0⟩ rfl).2.2

/-- C1 counterexample.  A one-asset job whose destination file already
exists non-empty performs zero network fetches, but the summary does not
satisfy done == total: done stays 0 while total is 1. -/
theorem rerun_done_counterexample :
    (downloadChapter 3 false [(⟨true, true, false, false⟩, false)]
      ⟨0, 0, none, 0⟩).1.fetches = 0 ∧
    ¬ (downloadChapter 3 false [(⟨true, true, false, false⟩, false)]
      ⟨0, 0, none, 0⟩).1.done =
      (downloadChapter 3 false [(⟨true, true, false, false⟩, false)]
        ⟨0, 0, none, 0⟩).1.total := by
  decide

/-- C1 amended.  For a job whose destination files all already exist with
non-zero size, re-running download_chapter performs zero network fetches,
but the reported done count is 0 (skipped assets are not counted), so
done == total only for an empty job. -/
theorem rerun_skips_all_files (d : Int) (compress : Bool)
    (conds : List (AssetCond × Bool)) (st : RedisState)
    (h : ∀ p ∈ conds, (p : AssetCond × Bool).1.destExistsNonEmpty = true) :
    (downloadChapter d compress conds st).1.fetches = 0 ∧
    (downloadChapter d compress conds st).1.done = 0 := by
  have key : ∀ (l : List (AssetCond × Bool)) (s : RedisState),
      (∀ p ∈ l, (p : AssetCond × Bool).1.destExistsNonEmpty = true) →
      (runSaves d compress l s).1.1 = 0 ∧ (runSaves d compress l s).1.2 = 0 := by
    intro l
    induction l with
    | nil => intro s _; exact ⟨rfl, rfl⟩
    | cons p rest ih =>
      intro s hall
      obtain ⟨c, decay⟩ := p
      have hc : c.destExistsNonEmpty = true := hall (c, decay) (by simp)
      have hrest := ih (saveEffect d compress c decay s)
        (fun q hq => hall q (List.mem_cons_of_mem _ hq))
      simp only [runSaves, save, hc, if_true]
      exact ⟨by simp [hrest.1], by simp [hrest.2]⟩
  have hk := key conds (acquireSlot st) h
  exact ⟨hk.2, hk.1⟩

/-- Witness for C1 amended: a one-asset job with the file already present
non-empty does zero fetches and reports done 0. -/
theorem rerun_skips_all_files_witness :
    (downloadChapter 3 false [(⟨true, true, false, false⟩, false)]
      ⟨0, 0, none, 0⟩).1.fetches = 0 ∧
    (downloadChapter 3 false [(⟨true, true, false, false⟩, false)]
      ⟨0, 0, none, 0⟩).1.done = 0 :=
  rerun_skips_all_files 3 false [(⟨true, true, false, false⟩, false)]
    ⟨0, 0, none, 0⟩ (by decide)

/-- C4 counterexample.  A `save` call on the already-downloaded skip path
does not result in exactly one _record_result call: it makes none. -/
theorem record_outcome_skip_counterexample :
    ¬ (save false ⟨true, true, false, false⟩).recordCalls.length = 1 := by
  decide

/-- C4 amended.  A `save` call reports exactly one outcome via
_record_result on the success and failure paths, and zero outcomes on the
already-downloaded skip path (which also leaves the source state
untouched). -/
theorem record_outcome_per_path (compress : Bool) (c : AssetCond) (d : Int)
    (decay : Bool) (st : RedisState) :
    (save compress c).recordCalls.length =
      (if c.destExistsNonEmpty then 0 else 1) ∧
    saveEffect d compress c decay st =
      (if c.destExistsNonEmpty then st
       else recordResult d decay
         ((save compress c).recordCalls.headD true) st) := by
  simp only [save, saveEffect]
  split_ifs <;> simp

/-- C10.  With compression enabled, a fetch whose download succeeds but
whose PIL re-encoding raises reports a failure outcome (one _record_result
with success = false), does not increment `done`, and leaves the
downloaded file on disk. -/
theorem compress_failure_recorded_error (c : AssetCond) (d : Int)
    (decay : Bool) (st : RedisState)
    (h1 : c.destExistsNonEmpty = false) (h2 : c.netOk = true)
    (h3 : c.compressRaises = true) :
    (save true c).recordCalls = [false] ∧
    (save true c).doneInc = 0 ∧
    (save true c).fileOnDisk = true ∧
    saveEffect d true c decay st = recordResult d decay false st := by
  simp [save, saveEffect, h1, h2, h3]

/-- Witness for C10: the concrete compression-failure conditions. -/
theorem compress_failure_recorded_error_witness :
    (save true ⟨false, true, true, false⟩).recordCalls = [false] ∧
    (save true ⟨false, true, true, false⟩).doneInc = 0 ∧
    (save true ⟨false, true, true, false⟩).fileOnDisk = true ∧
    saveEffect 3 true ⟨false, true, true, false⟩ false ⟨0, 0, none, 0⟩ =
      recordResult 3 false false ⟨0, 0, none, 0⟩ :=
  compress_failure_recorded_error ⟨false, true, true, false⟩ 3 false
    ⟨0, 0, none, 0⟩ rfl rfl rfl

/-- C7 counterexample.  A dequeued payload that fails to decode does not
leave the consumer loop running: the iteration ends in loopCrashed and the
loop does not continue to the next job. -/
theorem consumer_decode_counterexample :
    consumerIteration (some (Except.error "SyntaxError: invalid syntax")) =
      ConsumerOutcome.loopCrashed "SyntaxError: invalid syntax" ∧
    continuesLoop (consumerIteration
      (some (Except.error "SyntaxError: invalid syntax"))) = false :=
  ⟨rfl, rfl⟩

/-- C7 amended.  worker.main has no exception handler around the decode, so
a decode failure propagates and terminates the consumer loop; only the
queue-timeout and successfully-decoded iterations continue the loop. -/
theorem consumer_decode_failure_terminates (e : String) (j : JobPayload) :
    consumerIteration (some (Except.error e)) =
      ConsumerOutcome.loopCrashed e ∧
    continuesLoop (consumerIteration (some (Except.error e))) = false ∧
    continuesLoop (consumerIteration none) = true ∧
    continuesLoop (consumerIteration (some (Except.ok j))) = true :=
  ⟨rfl, rfl, rfl, rfl⟩

theorem chapterFilenamesFrom_get (k : Nat) (urls : List String) (i : Nat)
    (u : String) (h : urls.get? i = some u) :
    (chapterFilenamesFrom k urls).get? i =
      some (assetFilename (k + i) u) := by
  induction urls generalizing k i with
  | nil => simp at h
  | cons a as ih =>
    cases i with
    | zero =>
      simp only [List.get?] at h
      injection h with h
      subst h
      simp [chapterFilenamesFrom]
    | succ n =>
      simp only [List.get?] at h
      have hh := ih (k + 1) n h
      have heq : k + 1 + n = k + (n + 1) := by omega
      rw [heq] at hh
      simpa only [chapterFilenamesFrom, List.get?_cons_succ] using hh

/-- C8.  The file for the asset at 1-based position i+1 is named
f"{i+1:03d}{ext}" with ext the URL's suffix or ".jpg"; the two-asset job
with label ch1 under /tmp/x yields /tmp/x/ch1/001.jpg and /tmp/x/ch1/002.jpg
and a summary done 2 of total 2 when both fetches succeed. -/
theorem filename_layout (urls : List String) (i : Nat) (u : String)
    (h : urls.get? i = some u) :
    (chapterFilenames urls).get? i = some (assetFilename (i + 1) u) ∧
    chapterFilenames ["http://h/1.jpg", "http://h/2.jpg"] =
      ["001.jpg", "002.jpg"] ∧
    assetDest "/tmp" "x" "ch1" 1 "http://h/1.jpg" = "/tmp/x/ch1/001.jpg" ∧
    assetDest "/tmp" "x" "ch1" 2 "http://h/2.jpg" = "/tmp/x/ch1/002.jpg" ∧
    (downloadChapter 3 false
      [(⟨false, true, false, false⟩, false),
       (⟨false, true, false, false⟩, false)]
      ⟨0, 0, none, 0⟩).1 = ⟨2, 2, 2⟩ := by
  refine ⟨?_, by decide, by decide, by decide, by decide⟩
  have := chapterFilenamesFrom_get 1 urls i u h
  simpa [chapterFilenames, Nat.add_comm] using this

/-- Witness for C8: the first asset of the scenario job is written to
001.jpg. -/
theorem filename_layout_witness :
    (["http://h/1.jpg", "http://h/2.jpg"] : List String).get? 0 =
      some "http://h/1.jpg" ∧
    (chapterFilenames ["http://h/1.jpg", "http://h/2.jpg"]).get? 0 =
      some (assetFilename 1 "http://h/1.jpg") :=
  ⟨rfl, (filename_layout ["http://h/1.jpg", "http://h/2.jpg"] 0
    "http://h/1.jpg" rfl).1⟩

theorem holdingCount_append (a b : List Phase) :
    holdingCount (a ++ b) = holdingCount a + holdingCount b :=
  List.countP_append _ _ _

theorem holdingCount_mid (pre post : List Phase) (t : Phase) :
    holdingCount (pre ++ t :: post) =
      holdingCount pre + holdingCount post +
        (if t = Phase.holding then 1 else 0) := by
  rw [holdingCount_append]
  unfold holdingCount
  rw [List.countP_cons]
  cases t <;> simp [Nat.add_assoc]

theorem holdingCount_replicate_idle (n : Nat) :
    holdingCount (List.replicate n Phase.idle) = 0 := by
  unfold holdingCount
  rw [List.countP_eq_zero]
  intro a ha
  rw [(List.mem_replicate.mp ha).2]
  decide

theorem semStep_holding_le (cap : Nat) (ts ts2 : List Phase)
    (hstep : SemStep cap ts ts2) (hle : holdingCount ts ≤ cap) :
    holdingCount ts2 ≤ cap := by
  have hidle : (if Phase.idle = Phase.holding then 1 else 0) = 0 := by decide
  have hwait : (if Phase.waiting = Phase.holding then 1 else 0) = 0 := by decide
  have hhold : (if Phase.holding = Phase.holding then 1 else 0) = 1 := by decide
  have hfin : (if Phase.finished = Phase.holding then 1 else 0) = 0 := by decide
  cases hstep with
  | start pre post =>
    rw [holdingCount_mid] at hle ⊢
    omega
  | acquire pre post hcap =>
    rw [holdingCount_mid] at hle ⊢
    rw [holdingCount_append] at hcap
    omega
  | release pre post =>
    rw [holdingCount_mid] at hle ⊢
    omega

/-- C9.  Under the per-job semaphore with capacity cap, every fan-out state
reachable from the initial one has at most cap downloads in flight; in
particular a 10-asset job with cap 3 never has more than 3 concurrent
fetches. -/
theorem fanout_cap_respected (cap n : Nat) (ts : List Phase)
    (h : SemReachable cap n ts) : holdingCount ts ≤ cap := by
  unfold SemReachable at h
  induction h with
  | refl => rw [holdingCount_replicate_idle]; exact Nat.zero_le cap
  | tail hab hbc ih => exact semStep_holding_le cap _ _ hbc ih

/-- Witness for C9: the initial state of a 10-asset fan-out with cap 3 is
reachable and holds at most 3 slots. -/
theorem fanout_cap_respected_witness :
    SemReachable 3 10 (List.replicate 10 Phase.idle) ∧
    holdingCount (List.replicate 10 Phase.idle) ≤ 3 :=
  ⟨Relation.ReflTransGen.refl,
   fanout_cap_respected 3 10 _ Relation.ReflTransGen.refl⟩

end Astas
